import Mathlib

/-!
Verification development for the serial I/O engine of `bevy_serial`
(`src/rust/bevy_serial/src/lib.rs`).

The engine's two runtime systems, `read_serial` and `write_serial`, are
per-port drain loops over a non-blocking OS byte stream.  We embed them
shallowly: the OS is represented by a trace of syscall results (one element
per actual syscall performed), and each loop is a step-indexed recursive
function (`fuel` counts loop iterations, since the source loops are
unbounded `loop { .. }` constructs).  Buffers are `List Nat`, one `Nat` per
byte.  Diagnostics printed with `eprintln!` are collected in a `reports`
field; emitted `SerialReadEvent`s are collected in `messages`.

Startup (`SerialPlugin::build`) is embedded as `build`, with the `HashMap`
of label indices modelled as an association list whose `insertIdx`
mirrors `HashMap::insert` (replace an existing binding for the key).
Device opening is assumed to succeed (an open failure panics in the source
and is outside the claims considered here); the ports opened are recorded
in declaration order in `openedPorts`.
-/

/-- Mirrors `mio_serial::DataBits` as used by `SerialSetting`. -/
inductive DataBits where
  | five | six | seven | eight
deriving DecidableEq

/-- Mirrors `mio_serial::FlowControl`. -/
inductive FlowControl where
  | none | software | hardware
deriving DecidableEq

/-- Mirrors `mio_serial::Parity`. -/
inductive Parity where
  | none | odd | even
deriving DecidableEq

/-- Mirrors `mio_serial::StopBits`. -/
inductive StopBits where
  | one | two
deriving DecidableEq

/-- Mirrors `SerialSetting` (lib.rs lines 169-187); `timeout` in ms. -/
structure SerialSetting where
  label : Option String
  port_name : String
  baud_rate : Nat
  data_bits : DataBits
  flow_control : FlowControl
  parity : Parity
  stop_bits : StopBits
  timeout : Nat
deriving DecidableEq

/-- Label resolution in `SerialPlugin::build` (lib.rs lines 255-261):
the explicit label if set, else the port name. -/
def resolvedLabel (s : SerialSetting) : String :=
  match s.label with
  | some label => label
  | none => s.port_name

/-- Model of `HashMap::insert` on the label index (lib.rs line 264):
replace an existing binding for the key, else append a new one. -/
def insertIdx : List (String × Nat) → String → Nat → List (String × Nat)
  | [], k, v => [(k, v)]
  | (k', v') :: rest, k, v =>
      if k' = k then (k, v) :: rest else (k', v') :: insertIdx rest k v

/-- Model of `HashMap::get` on the label index (lib.rs line 365). -/
def lookupIdx : List (String × Nat) → String → Option Nat
  | [], _ => none
  | (k', v') :: rest, k => if k' = k then some v' else lookupIdx rest k

/-- Result of `SerialPlugin::build` (lib.rs lines 228-285): the label
index, the per-slot `(label, connected)` state, and the port names of the
devices opened, in order. -/
structure BuildResult where
  indices : List (String × Nat)
  serials : List (String × Bool)
  openedPorts : List String
deriving DecidableEq

/-- The `for (i, setting)` loop of `SerialPlugin::build`
(lib.rs lines 234-270): open the device, resolve the label, insert it
into the index at slot `i`, and push the labeled stream with
`connected = true`. -/
def buildAux : BuildResult → Nat → List SerialSetting → BuildResult
  | acc, _, [] => acc
  | acc, i, s :: rest =>
      buildAux
        ⟨insertIdx acc.indices (resolvedLabel s) i,
         acc.serials ++ [(resolvedLabel s, true)],
         acc.openedPorts ++ [s.port_name]⟩
        (i + 1) rest

/-- `SerialPlugin::build` over a configuration sequence. -/
def build (settings : List SerialSetting) : BuildResult :=
  buildAux ⟨[], [], []⟩ 0 settings

/-- Index (within the list) of the LAST setting whose resolved label is
`q`, if any.  Used to characterise which slot a label resolves to after
all `HashMap::insert` calls of `build`. -/
def lastResIdx (q : String) : List SerialSetting → Option Nat
  | [] => none
  | s :: rest =>
      match lastResIdx q rest with
      | some j => some (j + 1)
      | none => if resolvedLabel s = q then some 0 else none

/-- Two configs in the list resolve to the same label. -/
def hasDupResolvedLabel : List SerialSetting → Bool
  | [] => false
  | s :: rest =>
      rest.any (fun t => resolvedLabel t == resolvedLabel s) ||
      hasDupResolvedLabel rest

/-- A concrete configuration in which both configs resolve to label
`"nav"`. -/
def dupSettings : List SerialSetting :=
  [{ label := some "nav", port_name := "/dev/ttyUSB0", baud_rate := 115200,
     data_bits := DataBits.eight, flow_control := FlowControl.none,
     parity := Parity.none, stop_bits := StopBits.one, timeout := 0 },
   { label := some "nav", port_name := "/dev/ttyUSB1", baud_rate := 115200,
     data_bits := DataBits.eight, flow_control := FlowControl.none,
     parity := Parity.none, stop_bits := StopBits.one, timeout := 0 }]

/-- `DEFAULT_READ_BUFFER_LEN` (lib.rs line 225). -/
def DEFAULT_READ_BUFFER_LEN : Nat := 2048

/-- `vec![0_u8; DEFAULT_READ_BUFFER_LEN]` (lib.rs line 311). -/
def initialReadBuffer : List Nat := List.replicate DEFAULT_READ_BUFFER_LEN 0

/-- One result of `serial.stream.read(&mut buffer[bytes_read..])`:
`data chunk` models `Ok(chunk.length)` with `chunk` the bytes the OS
placed in the slice (so `data []` is `Ok(0)`, the closed-connection
signal); the error cases model the three `Err` kinds distinguished by the
source. -/
inductive ReadResult where
  | data (chunk : List Nat)
  | wouldBlock
  | interrupted
  | otherError
deriving DecidableEq

/-- Observable outcome of one invocation of the read-drain loop
(lib.rs lines 310-352) on one port: the `SerialReadEvent`s sent, the
`eprintln!` diagnostics in order, the final `connected` flag, whether the
loop reached a `break` within the supplied fuel, and the final buffer
state. -/
structure ReadDrainResult where
  messages : List (String × List Nat)
  reports : List String
  connected : Bool
  finished : Bool
  buffer : List Nat
  bytesRead : Nat
deriving DecidableEq

/-- Diagnostic of lib.rs line 319. -/
def readClosedMsg : String := "read connection closed"

/-- Diagnostic of lib.rs line 344 (error display elided). -/
def readFailMsg (label : String) : String :=
  "Failed to read serial port " ++ label

/-- Diagnostic of lib.rs lines 348 and 403. -/
def connClosedMsg (label : String) : String :=
  label ++ " connection has closed"

/-- The `Ok(n)` arm of the read loop (lib.rs lines 325-330): the chunk is
written into `buffer[bytes_read..]`, `bytes_read` advances by its length,
and if the buffer is now exactly full it is extended by
`DEFAULT_READ_BUFFER_LEN` zeroes (`buffer.resize`). -/
def readDataStep (buffer : List Nat) (bytesRead : Nat) (chunk : List Nat) :
    List Nat × Nat :=
  let buffer' := buffer.take bytesRead ++ chunk ++ buffer.drop (bytesRead + chunk.length)
  let bytesRead' := bytesRead + chunk.length
  if bytesRead' = buffer'.length then
    (buffer' ++ List.replicate DEFAULT_READ_BUFFER_LEN 0, bytesRead')
  else
    (buffer', bytesRead')

/-- The `loop` of `read_serial` for one readable port (lib.rs lines
313-351).  `trace` supplies the result of each successive `read` syscall;
no trace element is consumed when `connected` is false, because the source
performs no read in that branch (it only prints and iterates again).
`fuel` bounds the number of loop iterations evaluated. -/
def readDrainAux (label : String) (connected : Bool) :
    List Nat → Nat → List ReadResult → Nat → ReadDrainResult
  | buffer, bytesRead, _, 0 => ⟨[], [], connected, false, buffer, bytesRead⟩
  | buffer, bytesRead, trace, fuel + 1 =>
    if connected then
      match trace with
      | [] => ⟨[], [], connected, false, buffer, bytesRead⟩
      | ReadResult.data [] :: _ =>
          ⟨[], [readClosedMsg], false, true, buffer, bytesRead⟩
      | ReadResult.data (b :: bs) :: rest =>
          let s := readDataStep buffer bytesRead (b :: bs)
          readDrainAux label connected s.1 s.2 rest fuel
      | ReadResult.wouldBlock :: _ =>
          ⟨[(label, buffer.take bytesRead)], [], connected, true, buffer, bytesRead⟩
      | ReadResult.interrupted :: rest =>
          readDrainAux label connected buffer bytesRead rest fuel
      | ReadResult.otherError :: rest =>
          let r := readDrainAux label connected buffer bytesRead rest fuel
          ⟨r.messages, readFailMsg label :: r.reports, r.connected, r.finished,
           r.buffer, r.bytesRead⟩
    else
      let r := readDrainAux label connected buffer bytesRead trace fuel
      ⟨r.messages, connClosedMsg label :: r.reports, r.connected, r.finished,
       r.buffer, r.bytesRead⟩

/-- The read drain as entered by `read_serial` for a readable token:
fresh zero buffer of `DEFAULT_READ_BUFFER_LEN` and `bytes_read = 0`
(lib.rs lines 311-312). -/
def read_serial_drain (label : String) (connected : Bool)
    (trace : List ReadResult) (fuel : Nat) : ReadDrainResult :=
  readDrainAux label connected initialReadBuffer 0 trace fuel

/-- Well-formedness of a sequence of successful read chunks: each chunk
fits in the space the OS was offered, `buffer.len() - bytes_read`,
tracking the buffer-extension rule of `readDataStep`. -/
def readTraceFits : Nat → Nat → List (List Nat) → Bool
  | _, _, [] => true
  | bufLen, bytesRead, c :: cs =>
      decide (bytesRead + c.length ≤ bufLen) &&
      readTraceFits
        (if bytesRead + c.length = bufLen then bufLen + DEFAULT_READ_BUFFER_LEN
         else bufLen)
        (bytesRead + c.length) cs

/-- One result of `serial.stream.write(&buffer[bytes_wrote..])`:
`ok n` models `Ok(n)` (the OS accepted the first `n` bytes of the offered
slice); the error cases model the three `Err` kinds distinguished by the
source. -/
inductive WriteResult where
  | ok (n : Nat)
  | wouldBlock
  | interrupted
  | otherError
deriving DecidableEq

/-- Observable outcome of one invocation of the write-drain loop
(lib.rs lines 373-412) for one request: diagnostics, the byte chunks
actually accepted by the OS (in order), the final offset, and whether the
loop reached its `break` within the supplied fuel. -/
structure WriteDrainResult where
  reports : List String
  accepted : List (List Nat)
  bytesWrote : Nat
  finished : Bool
deriving DecidableEq

/-- Diagnostic of lib.rs line 399 (error display elided). -/
def writeFailMsg (label : String) : String :=
  "Failed to write serial port " ++ label

/-- Diagnostic of lib.rs lines 382-386. -/
def sizeErrMsg (n rem : Nat) : String :=
  "write size error " ++ toString n ++ " / " ++ toString rem

/-- The offset update of the two `Ok` arms (lib.rs lines 381-392): if
`n < buffer.len()` then `bytes_wrote += n`, otherwise
`bytes_wrote += buffer.len()`.  Note the comparison is against the whole
buffer length, exactly as in the source, not against the remainder. -/
def writeStepBytes (bufLen bytesWrote n : Nat) : Nat :=
  if n < bufLen then bytesWrote + n else bytesWrote + bufLen

/-- The `loop` of `write_serial` for one request (lib.rs lines 374-412).
`trace` supplies the result of each successive `write` syscall; no trace
element is consumed when `connected` is false (the source performs no
write there).  Every branch ends with the source's
`if bytes_wrote == buffer.len() { break } else { continue }` check. -/
def writeDrainAux (label : String) (connected : Bool) (buffer : List Nat) :
    Nat → List WriteResult → Nat → WriteDrainResult
  | bytesWrote, _, 0 => ⟨[], [], bytesWrote, false⟩
  | bytesWrote, trace, fuel + 1 =>
    if connected then
      match trace with
      | [] => ⟨[], [], bytesWrote, false⟩
      | WriteResult.ok n :: rest =>
          let rep : List String :=
            if n < buffer.length then [sizeErrMsg n (buffer.length - bytesWrote)]
            else []
          let chunk := (buffer.drop bytesWrote).take n
          let bw := writeStepBytes buffer.length bytesWrote n
          if bw = buffer.length then ⟨rep, [chunk], bw, true⟩
          else
            let r := writeDrainAux label connected buffer bw rest fuel
            ⟨rep ++ r.reports, chunk :: r.accepted, r.bytesWrote, r.finished⟩
      | WriteResult.wouldBlock :: rest =>
          if bytesWrote = buffer.length then ⟨[], [], bytesWrote, true⟩
          else writeDrainAux label connected buffer bytesWrote rest fuel
      | WriteResult.interrupted :: rest =>
          if bytesWrote = buffer.length then ⟨[], [], bytesWrote, true⟩
          else writeDrainAux label connected buffer bytesWrote rest fuel
      | WriteResult.otherError :: rest =>
          if bytesWrote = buffer.length then
            ⟨[writeFailMsg label], [], bytesWrote, true⟩
          else
            let r := writeDrainAux label connected buffer bytesWrote rest fuel
            ⟨writeFailMsg label :: r.reports, r.accepted, r.bytesWrote, r.finished⟩
    else
      if bytesWrote = buffer.length then ⟨[connClosedMsg label], [], bytesWrote, true⟩
      else
        let r := writeDrainAux label connected buffer bytesWrote trace fuel
        ⟨connClosedMsg label :: r.reports, r.accepted, r.bytesWrote, r.finished⟩

/-- The write drain as entered by `write_serial` for one request:
`bytes_wrote = 0` (lib.rs line 373). -/
def write_serial_drain (label : String) (connected : Bool) (buffer : List Nat)
    (trace : List WriteResult) (fuel : Nat) : WriteDrainResult :=
  writeDrainAux label connected buffer 0 trace fuel

/-- Well-formedness of a sequence of accepted write counts: each count is
at most the remaining bytes the OS was offered, `buffer.len() - bytes_wrote`. -/
def oksFit (bufLen : Nat) : Nat → List Nat → Bool
  | _, [] => true
  | bytesWrote, k :: ks =>
      decide (k ≤ bufLen - bytesWrote) && oksFit bufLen (bytesWrote + k) ks

/-- Panic message of lib.rs line 366. -/
def labelNotExistMsg (label : String) : String :=
  "Label " ++ label ++ " is not exist"

/-- Panic message of lib.rs lines 367-370. -/
def serialsNotInitMsg : String := "SERIALS are not initialized"

/-- Outcome of handling one `SerialWriteEvent`: either a process-ending
panic (`expect`) or a completed run of the write-drain loop. -/
inductive WriteOutcome where
  | panicked (msg : String)
  | handled (res : WriteDrainResult)
deriving DecidableEq

/-- Per-request body of `write_serial` (lib.rs lines 361-412): resolve
the label through the index with `expect` (panicking when absent), fetch
the slot with `expect`, then run the drain loop against that slot's
`(label, connected)` state. -/
def write_serial_request (indices : List (String × Nat))
    (serials : List (String × Bool)) (label : String) (buffer : List Nat)
    (trace : List WriteResult) (fuel : Nat) : WriteOutcome :=
  match lookupIdx indices label with
  | none => WriteOutcome.panicked (labelNotExistMsg label)
  | some i =>
      match serials.get? i with
      | none => WriteOutcome.panicked serialsNotInitMsg
      | some s => WriteOutcome.handled (writeDrainAux s.1 s.2 buffer 0 trace fuel)

/-- Claim C3 rendered in the spec's words over the build model: a
configuration in which two configs resolve to the same label is rejected
before any device is opened (no partial side effects). -/
def duplicateLabelsRejected : Prop :=
  ∀ settings : List SerialSetting, hasDupResolvedLabel settings = true →
    (build settings).openedPorts = []

/-- Claim C4 rendered in the spec's words over the write-drain model:
there is a bound on the number of would-block retries per cycle, after
which the drain yields back to the host loop (reaches its exit). -/
def writeWouldBlockBounded : Prop :=
  ∃ bound : Nat, ∀ (label : String) (b : Nat) (bs : List Nat) (n : Nat),
    bound ≤ n →
    (write_serial_drain label true (b :: bs)
        (List.replicate n WriteResult.wouldBlock) n).finished = true

/-- Claim C5 rendered in the spec's words over the request model: a write
request whose label is unknown never terminates the process (never
panics). -/
def unknownLabelNeverPanics : Prop :=
  ∀ (indices : List (String × Nat)) (serials : List (String × Bool))
    (label : String) (buffer : List Nat) (trace : List WriteResult)
    (fuel : Nat),
    lookupIdx indices label = none →
    ∀ msg, write_serial_request indices serials label buffer trace fuel ≠
      WriteOutcome.panicked msg

/-! ## Helper lemmas -/

theorem lookupIdx_insertIdx (m : List (String × Nat)) (k q : String) (v : Nat) :
    lookupIdx (insertIdx m k v) q = if k = q then some v else lookupIdx m q := by
  induction m with
  | nil => simp [insertIdx, lookupIdx]
  | cons p rest ih =>
      obtain ⟨k', v'⟩ := p
      simp only [insertIdx]
      by_cases hk : k' = k
      · subst hk
        by_cases hq : k' = q
        · subst hq; simp [lookupIdx]
        · simp [lookupIdx, hq]
      · by_cases hq : k' = q
        · subst hq
          have hkq : ¬ (k = k') := fun h => hk h.symm
          simp [lookupIdx, hk, hkq]
        · simp [lookupIdx, hk, hq, ih]

theorem buildAux_openedPorts (settings : List SerialSetting) :
    ∀ (acc : BuildResult) (i : Nat),
      (buildAux acc i settings).openedPorts
        = acc.openedPorts ++ settings.map SerialSetting.port_name := by
  induction settings with
  | nil => intro acc i; simp [buildAux]
  | cons s rest ih =>
      intro acc i
      simp [buildAux, ih, List.append_assoc]

theorem buildAux_serials (settings : List SerialSetting) :
    ∀ (acc : BuildResult) (i : Nat),
      (buildAux acc i settings).serials
        = acc.serials ++ settings.map (fun s => (resolvedLabel s, true)) := by
  induction settings with
  | nil => intro acc i; simp [buildAux]
  | cons s rest ih =>
      intro acc i
      simp [buildAux, ih, List.append_assoc]

theorem buildAux_lookup (settings : List SerialSetting) :
    ∀ (acc : BuildResult) (i : Nat) (q : String),
      lookupIdx (buildAux acc i settings).indices q
        = match lastResIdx q settings with
          | some j => some (i + j)
          | none => lookupIdx acc.indices q := by
  induction settings with
  | nil => intro acc i q; simp [buildAux, lastResIdx]
  | cons s rest ih =>
      intro acc i q
      simp only [buildAux, lastResIdx]
      rw [ih]
      cases h : lastResIdx q rest with
      | some j =>
          simp only [h]
          congr 1
          omega
      | none =>
          simp only [h]
          rw [lookupIdx_insertIdx]
          by_cases hq : resolvedLabel s = q
          · simp [hq]
          · simp [hq]

theorem readDrainAux_disconnected (label : String) (n : Nat) :
    ∀ (buffer : List Nat) (br : Nat) (trace : List ReadResult),
      readDrainAux label false buffer br trace n
        = ⟨[], List.replicate n (connClosedMsg label), false, false, buffer, br⟩ := by
  induction n with
  | zero => intro buffer br trace; simp [readDrainAux]
  | succ n ih =>
      intro buffer br trace
      simp [readDrainAux, ih, List.replicate_succ]

theorem writeDrainAux_disconnected (label : String) (n : Nat) :
    ∀ (buffer : List Nat) (bw : Nat) (trace : List WriteResult),
      bw ≠ buffer.length →
      writeDrainAux label false buffer bw trace n
        = ⟨List.replicate n (connClosedMsg label), [], bw, false⟩ := by
  induction n with
  | zero => intro buffer bw trace h; simp [writeDrainAux]
  | succ n ih =>
      intro buffer bw trace h
      simp [writeDrainAux, if_neg h, ih _ _ _ h, List.replicate_succ]

theorem writeDrainAux_disconnected_accepted (label : String) (n : Nat) :
    ∀ (buffer : List Nat) (bw : Nat) (trace : List WriteResult),
      (writeDrainAux label false buffer bw trace n).accepted = [] ∧
      (writeDrainAux label false buffer bw trace n).bytesWrote = bw := by
  induction n with
  | zero => intro buffer bw trace; simp [writeDrainAux]
  | succ n ih =>
      intro buffer bw trace
      by_cases h : bw = buffer.length
      · simp [writeDrainAux, if_pos h]
      · simp [writeDrainAux, if_neg h, (ih buffer bw trace).1, (ih buffer bw trace).2]

theorem writeDrainAux_wouldBlock_spins (label : String) (n : Nat) :
    ∀ (buffer : List Nat) (bw : Nat),
      bw ≠ buffer.length →
      writeDrainAux label true buffer bw (List.replicate n WriteResult.wouldBlock) n
        = ⟨[], [], bw, false⟩ := by
  induction n with
  | zero => intro buffer bw h; simp [writeDrainAux]
  | succ n ih =>
      intro buffer bw h
      simp [List.replicate_succ, writeDrainAux, if_neg h, ih _ _ h]

theorem take_append_exact (A C B : List Nat) (n : Nat) (hA : A.length = n) :
    (A ++ C ++ B).take (n + C.length) = A ++ C := by
  subst hA
  rw [List.append_assoc, List.take_append_eq_append_take]
  rw [List.take_of_length_le (by omega), Nat.add_sub_cancel_left]
  rw [List.take_append_eq_append_take, List.take_length, Nat.sub_self, List.take_zero,
    List.append_nil]

theorem take_append_left (l m : List Nat) (n : Nat) (h : n ≤ l.length) :
    (l ++ m).take n = l.take n := by
  rw [List.take_append_eq_append_take, Nat.sub_eq_zero_of_le h, List.take_zero,
    List.append_nil]

theorem spliceAt_length (buffer chunk : List Nat) (br : Nat)
    (h : br + chunk.length ≤ buffer.length) :
    (buffer.take br ++ chunk ++ buffer.drop (br + chunk.length)).length
      = buffer.length := by
  simp [List.length_append, List.length_take, List.length_drop]
  omega

theorem readDataStep_spec (buffer chunk : List Nat) (br : Nat)
    (h : br + chunk.length ≤ buffer.length) :
    (readDataStep buffer br chunk).2 = br + chunk.length ∧
    (readDataStep buffer br chunk).1.length
      = (if br + chunk.length = buffer.length
         then buffer.length + DEFAULT_READ_BUFFER_LEN else buffer.length) ∧
    (readDataStep buffer br chunk).1.take (br + chunk.length)
      = buffer.take br ++ chunk := by
  have hA : (buffer.take br).length = br := by
    rw [List.length_take]; omega
  have hlen := spliceAt_length buffer chunk br h
  have htake : (buffer.take br ++ chunk ++ buffer.drop (br + chunk.length)).take
      (br + chunk.length) = buffer.take br ++ chunk := by
    have := take_append_exact (buffer.take br) chunk
      (buffer.drop (br + chunk.length)) br hA
    simpa using this
  unfold readDataStep
  simp only [hlen]
  by_cases hfull : br + chunk.length = buffer.length
  · rw [if_pos hfull]
    refine ⟨rfl, ?_, ?_⟩
    · rw [List.length_append, hlen, List.length_replicate, if_pos hfull]
    · rw [take_append_left _ _ _ (by omega), htake]
  · rw [if_neg hfull]
    exact ⟨rfl, by rw [hlen, if_neg hfull], htake⟩

theorem readDrainAux_data_cons (label : String) (buffer : List Nat) (br : Nat)
    (b : Nat) (bs : List Nat) (rest : List ReadResult) (fuel : Nat) :
    readDrainAux label true buffer br (ReadResult.data (b :: bs) :: rest) (fuel + 1)
      = readDrainAux label true (readDataStep buffer br (b :: bs)).1
          (readDataStep buffer br (b :: bs)).2 rest fuel := rfl

theorem readDrainAux_wb_cons (label : String) (buffer : List Nat) (br : Nat)
    (rest : List ReadResult) (fuel : Nat) :
    readDrainAux label true buffer br (ReadResult.wouldBlock :: rest) (fuel + 1)
      = ⟨[(label, buffer.take br)], [], true, true, buffer, br⟩ := rfl

theorem readDrainAux_zero_cons (label : String) (buffer : List Nat) (br : Nat)
    (rest : List ReadResult) (fuel : Nat) :
    readDrainAux label true buffer br (ReadResult.data [] :: rest) (fuel + 1)
      = ⟨[], [readClosedMsg], false, true, buffer, br⟩ := rfl

theorem readDrainAux_err_cons (label : String) (buffer : List Nat) (br : Nat)
    (rest : List ReadResult) (fuel : Nat) :
    readDrainAux label true buffer br (ReadResult.otherError :: rest) (fuel + 1)
      = ⟨(readDrainAux label true buffer br rest fuel).messages,
         readFailMsg label :: (readDrainAux label true buffer br rest fuel).reports,
         (readDrainAux label true buffer br rest fuel).connected,
         (readDrainAux label true buffer br rest fuel).finished,
         (readDrainAux label true buffer br rest fuel).buffer,
         (readDrainAux label true buffer br rest fuel).bytesRead⟩ := rfl

theorem readDrainAux_data_wb (label : String) (chunks : List (List Nat)) :
    ∀ (buffer : List Nat) (br : Nat),
      br ≤ buffer.length →
      (∀ c ∈ chunks, c ≠ []) →
      readTraceFits buffer.length br chunks = true →
      (readDrainAux label true buffer br
          (chunks.map ReadResult.data ++ [ReadResult.wouldBlock])
          (chunks.length + 1)).messages
        = [(label, buffer.take br ++ chunks.flatten)] ∧
      (readDrainAux label true buffer br
          (chunks.map ReadResult.data ++ [ReadResult.wouldBlock])
          (chunks.length + 1)).reports = [] ∧
      (readDrainAux label true buffer br
          (chunks.map ReadResult.data ++ [ReadResult.wouldBlock])
          (chunks.length + 1)).connected = true ∧
      (readDrainAux label true buffer br
          (chunks.map ReadResult.data ++ [ReadResult.wouldBlock])
          (chunks.length + 1)).finished = true := by
  induction chunks with
  | nil =>
      intro buffer br hbr hne hfit
      simp [readDrainAux_wb_cons]
  | cons c cs ih =>
      intro buffer br hbr hne hfit
      have hcne : c ≠ [] := hne c (by simp)
      obtain ⟨b, bs, rfl⟩ : ∃ b bs, c = b :: bs := by
        cases c with
        | nil => exact absurd rfl hcne
        | cons b bs => exact ⟨b, bs, rfl⟩
      simp only [readTraceFits, Bool.and_eq_true, decide_eq_true_eq] at hfit
      obtain ⟨hle, hfit'⟩ := hfit
      obtain ⟨hs2, hs1len, hs1take⟩ := readDataStep_spec buffer (b :: bs) br hle
      simp only [List.map_cons, List.cons_append, List.length_cons]
      rw [readDrainAux_data_cons]
      have hbr' : (readDataStep buffer br (b :: bs)).2
          ≤ (readDataStep buffer br (b :: bs)).1.length := by
        rw [hs2, hs1len]
        by_cases hfull : br + (b :: bs).length = buffer.length
        · rw [if_pos hfull]; omega
        · rw [if_neg hfull]; omega
      have hne' : ∀ x ∈ cs, x ≠ [] := fun x hx => hne x (by simp [hx])
      have hfit'' : readTraceFits (readDataStep buffer br (b :: bs)).1.length
          (readDataStep buffer br (b :: bs)).2 cs = true := by
        rw [hs2, hs1len]; exact hfit'
      obtain ⟨hm, hr, hc, hf⟩ :=
        ih (readDataStep buffer br (b :: bs)).1 (readDataStep buffer br (b :: bs)).2
          hbr' hne' hfit''
      refine ⟨?_, hr, hc, hf⟩
      rw [hm, hs2, hs1take]
      simp [List.append_assoc]

theorem writeDrainAux_ok_cons (label : String) (buffer : List Nat) (bw n : Nat)
    (rest : List WriteResult) (fuel : Nat) :
    writeDrainAux label true buffer bw (WriteResult.ok n :: rest) (fuel + 1)
      = if writeStepBytes buffer.length bw n = buffer.length then
          ⟨if n < buffer.length then [sizeErrMsg n (buffer.length - bw)] else [],
           [(buffer.drop bw).take n], writeStepBytes buffer.length bw n, true⟩
        else
          ⟨(if n < buffer.length then [sizeErrMsg n (buffer.length - bw)] else [])
             ++ (writeDrainAux label true buffer (writeStepBytes buffer.length bw n)
                  rest fuel).reports,
           (buffer.drop bw).take n
             :: (writeDrainAux label true buffer (writeStepBytes buffer.length bw n)
                  rest fuel).accepted,
           (writeDrainAux label true buffer (writeStepBytes buffer.length bw n)
              rest fuel).bytesWrote,
           (writeDrainAux label true buffer (writeStepBytes buffer.length bw n)
              rest fuel).finished⟩ := rfl

theorem writeDrainAux_err_cons (label : String) (buffer : List Nat) (bw : Nat)
    (rest : List WriteResult) (fuel : Nat) (h : bw ≠ buffer.length) :
    writeDrainAux label true buffer bw (WriteResult.otherError :: rest) (fuel + 1)
      = ⟨writeFailMsg label
           :: (writeDrainAux label true buffer bw rest fuel).reports,
         (writeDrainAux label true buffer bw rest fuel).accepted,
         (writeDrainAux label true buffer bw rest fuel).bytesWrote,
         (writeDrainAux label true buffer bw rest fuel).finished⟩ := by
  simp [writeDrainAux, if_neg h]

theorem writeDrainAux_ok_run (label : String) (buffer : List Nat)
    (ks : List Nat) :
    ∀ (s : Nat),
      ks ≠ [] →
      (∀ k ∈ ks, 1 ≤ k) →
      oksFit buffer.length s ks = true →
      s + ks.sum = buffer.length →
      (writeDrainAux label true buffer s (ks.map WriteResult.ok) ks.length).finished
          = true ∧
      (writeDrainAux label true buffer s (ks.map WriteResult.ok) ks.length).bytesWrote
          = buffer.length ∧
      (writeDrainAux label true buffer s (ks.map WriteResult.ok) ks.length).accepted.flatten
          = buffer.drop s := by
  induction ks with
  | nil => intro s h; exact absurd rfl h
  | cons k ks ih =>
      intro s hne hpos hfit hsum
      simp only [oksFit, Bool.and_eq_true, decide_eq_true_eq] at hfit
      obtain ⟨hk, hfit'⟩ := hfit
      have hk1 : 1 ≤ k := hpos k (by simp)
      simp only [List.map_cons, List.length_cons]
      rw [writeDrainAux_ok_cons]
      cases ks with
      | nil =>
          have hsk : s + k = buffer.length := by
            simpa using hsum
          have hbw : writeStepBytes buffer.length s k = buffer.length := by
            unfold writeStepBytes
            by_cases hlt : k < buffer.length
            · rw [if_pos hlt]; omega
            · rw [if_neg hlt]; omega
          rw [if_pos hbw]
          have htk : (buffer.drop s).take k = buffer.drop s := by
            apply List.take_of_length_le
            rw [List.length_drop]; omega
          exact ⟨rfl, hbw, by simp [htk]⟩
      | cons k' ks' =>
          have hk'1 : 1 ≤ k' := hpos k' (by simp)
          have hsum' : ∀ x, x = k' + ks'.sum → s + (k + x) = buffer.length := by
            intro x hx; subst hx; simpa [Nat.add_assoc] using hsum
          have hsumval : s + (k + (k' + ks'.sum)) = buffer.length := hsum' _ rfl
          have hklt : k < buffer.length := by omega
          have hbwv : writeStepBytes buffer.length s k = s + k := by
            unfold writeStepBytes; rw [if_pos hklt]
          have hbwne : ¬ (s + k = buffer.length) := by omega
          rw [hbwv, if_neg hbwne]
          obtain ⟨hf, hbw, hacc⟩ :=
            ih (s + k) (by simp) (fun x hx => hpos x (by simp [hx])) hfit'
              (by simpa [Nat.add_assoc] using hsumval)
          refine ⟨hf, hbw, ?_⟩
          show ((buffer.drop s).take k
              :: (writeDrainAux label true buffer (s + k)
                    ((k' :: ks').map WriteResult.ok) (ks'.length + 1)).accepted).flatten
            = buffer.drop s
          rw [List.flatten_cons]
          simp only [List.map_cons, List.length_cons] at hacc ⊢
          rw [hacc, List.drop_take_append_drop]

/-! ## Claim theorems -/

/-- C1: for a port drained in one poll cycle, if the successive
non-blocking reads return byte chunks `b1, ..., bn` (each nonempty —
`Ok(0)` would signal a close — and each fitting the slice the OS was
offered, per `readTraceFits`) and the next read fails with would-block,
then exactly one `SerialReadEvent` is emitted, carrying the port's label
and exactly the concatenation `b1 ++ ... ++ bn` (the buffer truncated to
the bytes read so far): no byte loss, duplication or reordering.  The
drain then stops for the cycle (`finished`), prints no diagnostic, and
leaves `connected` true. -/
theorem c1_read_drain_concat (label : String) (chunks : List (List Nat))
    (hne : ∀ c ∈ chunks, c ≠ [])
    (hfit : readTraceFits DEFAULT_READ_BUFFER_LEN 0 chunks = true) :
    (read_serial_drain label true
        (chunks.map ReadResult.data ++ [ReadResult.wouldBlock])
        (chunks.length + 1)).messages = [(label, chunks.flatten)] ∧
    (read_serial_drain label true
        (chunks.map ReadResult.data ++ [ReadResult.wouldBlock])
        (chunks.length + 1)).reports = [] ∧
    (read_serial_drain label true
        (chunks.map ReadResult.data ++ [ReadResult.wouldBlock])
        (chunks.length + 1)).connected = true ∧
    (read_serial_drain label true
        (chunks.map ReadResult.data ++ [ReadResult.wouldBlock])
        (chunks.length + 1)).finished = true := by
  have hlen : initialReadBuffer.length = DEFAULT_READ_BUFFER_LEN := by
    simp [initialReadBuffer]
  obtain ⟨hm, hr, hc, hf⟩ :=
    readDrainAux_data_wb label chunks initialReadBuffer 0 (Nat.zero_le _) hne
      (by rw [hlen]; exact hfit)
  unfold read_serial_drain
  exact ⟨by rw [hm]; simp, hr, hc, hf⟩

theorem c1_read_drain_concat_witness :
    (∀ c ∈ [[1, 2], [3]], c ≠ ([] : List Nat)) ∧
    readTraceFits DEFAULT_READ_BUFFER_LEN 0 [[1, 2], [3]] = true ∧
    ((read_serial_drain "nav" true
        ([[1, 2], [3]].map ReadResult.data ++ [ReadResult.wouldBlock])
        ([[1, 2], [3]].length + 1)).messages = [("nav", [[1, 2], [3]].flatten)] ∧
     (read_serial_drain "nav" true
        ([[1, 2], [3]].map ReadResult.data ++ [ReadResult.wouldBlock])
        ([[1, 2], [3]].length + 1)).reports = [] ∧
     (read_serial_drain "nav" true
        ([[1, 2], [3]].map ReadResult.data ++ [ReadResult.wouldBlock])
        ([[1, 2], [3]].length + 1)).connected = true ∧
     (read_serial_drain "nav" true
        ([[1, 2], [3]].map ReadResult.data ++ [ReadResult.wouldBlock])
        ([[1, 2], [3]].length + 1)).finished = true) :=
  ⟨by decide, by decide, c1_read_drain_concat "nav" [[1, 2], [3]] (by decide) (by decide)⟩

/-- C2: a zero-byte read (`Ok(0)`) immediately sets `connected := false`,
breaks the drain, and emits no `SerialReadEvent` for the bytes buffered so
far; a read drain entered with `connected = false` never emits a message
and its `connected` flag stays false for any number of iterations (no
operation in either loop ever assigns `connected = true` — the write loop
never assigns it at all); and a write drain on a disconnected port passes
no byte chunk to the OS write call and never advances `bytes_wrote`, so no
successful write occurs for that slot afterward. -/
theorem c2_disconnect_is_permanent (label : String) (buffer : List Nat)
    (br : Nat) (rest : List ReadResult) (n m : Nat) (trace : List ReadResult)
    (wbuffer : List Nat) (bw : Nat) (wtrace : List WriteResult) :
    (readDrainAux label true buffer br (ReadResult.data [] :: rest) (n + 1)).connected
        = false ∧
    (readDrainAux label true buffer br (ReadResult.data [] :: rest) (n + 1)).messages
        = [] ∧
    (readDrainAux label true buffer br (ReadResult.data [] :: rest) (n + 1)).finished
        = true ∧
    (readDrainAux label false buffer br trace m).connected = false ∧
    (readDrainAux label false buffer br trace m).messages = [] ∧
    (writeDrainAux label false wbuffer bw wtrace m).accepted = [] ∧
    (writeDrainAux label false wbuffer bw wtrace m).bytesWrote = bw := by
  have hz := readDrainAux_zero_cons label buffer br rest n
  have hd := readDrainAux_disconnected label m buffer br trace
  have hw := writeDrainAux_disconnected_accepted label m wbuffer bw wtrace
  rw [hz, hd]
  exact ⟨rfl, rfl, rfl, rfl, rfl, hw.1, hw.2⟩

/-- C3 counterexample: the concrete configuration `dupSettings`, whose two
configs both resolve to label `"nav"`, is NOT rejected: both devices are
opened (`openedPorts` has both port names, refuting "initialization fails
before any device is opened"), and the label silently resolves to slot 1,
the later config shadowing the earlier one. -/
theorem c3_counterexample :
    ¬ duplicateLabelsRejected ∧
    (build dupSettings).openedPorts = ["/dev/ttyUSB0", "/dev/ttyUSB1"] ∧
    lookupIdx (build dupSettings).indices "nav" = some 1 := by
  refine ⟨?_, by decide, by decide⟩
  intro h
  have hd : hasDupResolvedLabel dupSettings = true := by decide
  exact absurd (h dupSettings hd) (by decide)

/-- C3 amended: two configs resolving to the same label are not rejected
and nothing fails before devices are opened: initialization opens every
configured device in declaration order, registers every slot with
`connected = true`, and the Label Index maps each label to the LAST config
that resolves to it (`lastResIdx`), silently shadowing earlier ones. -/
theorem c3_amended_all_opened_last_wins (settings : List SerialSetting)
    (q : String) :
    (build settings).openedPorts = settings.map SerialSetting.port_name ∧
    (build settings).serials = settings.map (fun s => (resolvedLabel s, true)) ∧
    lookupIdx (build settings).indices q = lastResIdx q settings := by
  refine ⟨?_, ?_, ?_⟩
  · simpa using buildAux_openedPorts settings ⟨[], [], []⟩ 0
  · simpa using buildAux_serials settings ⟨[], [], []⟩ 0
  · show lookupIdx (buildAux ⟨[], [], []⟩ 0 settings).indices q = lastResIdx q settings
    rw [buildAux_lookup settings ⟨[], [], []⟩ 0 q]
    cases h : lastResIdx q settings with
    | none => simp [lookupIdx]
    | some j => simp

/-- C4 counterexample: the claim's property — a bounded number of
would-block write attempts per cycle followed by a yield — is false: for
no bound does the drain reach its exit when the OS keeps answering
would-block (the would-block arm of the source is empty and every
iteration ends in `continue`). -/
theorem c4_counterexample : ¬ writeWouldBlockBounded := by
  rintro ⟨bound, h⟩
  have h1 := h "nav" 0 [] bound le_rfl
  have h2 := writeDrainAux_wouldBlock_spins "nav" bound [0] 0 (by decide)
  unfold write_serial_drain at h1
  rw [h2] at h1
  exact absurd h1 (by decide)

/-- C4 amended: when every write attempt fails with would-block, the write
drain retries without bound within the same cycle: after any number `n` of
would-block results the loop has not yielded (`finished = false`), has
accepted no bytes, made no progress (`bytes_wrote = 0`), printed nothing,
and no remainder is requeued — the code has no cap and no requeue
mechanism. -/
theorem c4_amended_wouldblock_spins (label : String) (b : Nat) (bs : List Nat)
    (n : Nat) :
    (write_serial_drain label true (b :: bs)
        (List.replicate n WriteResult.wouldBlock) n).finished = false ∧
    (write_serial_drain label true (b :: bs)
        (List.replicate n WriteResult.wouldBlock) n).bytesWrote = 0 ∧
    (write_serial_drain label true (b :: bs)
        (List.replicate n WriteResult.wouldBlock) n).accepted = [] ∧
    (write_serial_drain label true (b :: bs)
        (List.replicate n WriteResult.wouldBlock) n).reports = [] := by
  have h := writeDrainAux_wouldBlock_spins label n (b :: bs) 0 (by simp)
  unfold write_serial_drain
  rw [h]
  exact ⟨rfl, rfl, rfl, rfl⟩

/-- C5 counterexample: an unknown label in a write request DOES terminate
the process: with index `{"nav" ↦ 0}` a request for label `"bogus"` hits
the `expect` call and panics with the source's message, refuting "reports
a caller error ... and does not terminate the process". -/
theorem c5_counterexample : ¬ unknownLabelNeverPanics := by
  intro h
  exact h [("nav", 0)] [("nav", true)] "bogus" [1, 2] [] 3 (by decide)
    (labelNotExistMsg "bogus") rfl

/-- C5 amended: a write request whose label is not in the Label Index
panics via `expect` with message `!"Label {label} is not exist"`,
terminating the process; no write drain runs, so zero bytes are passed to
any port and no port state is touched before the panic. -/
theorem c5_amended_unknown_label_panics (indices : List (String × Nat))
    (serials : List (String × Bool)) (label : String) (buffer : List Nat)
    (trace : List WriteResult) (fuel : Nat)
    (h : lookupIdx indices label = none) :
    write_serial_request indices serials label buffer trace fuel
      = WriteOutcome.panicked (labelNotExistMsg label) := by
  unfold write_serial_request
  rw [h]

theorem c5_amended_unknown_label_panics_witness :
    lookupIdx [("nav", 0)] "bogus" = none ∧
    write_serial_request [("nav", 0)] [("nav", true)] "bogus" [1, 2] [] 3
      = WriteOutcome.panicked (labelNotExistMsg "bogus") :=
  ⟨by decide,
   c5_amended_unknown_label_panics [("nav", 0)] [("nav", true)] "bogus" [1, 2] [] 3
     (by decide)⟩

/-- C6 (code bug, evaluated at the failing input): when `connected` is
false neither loop "reports once per detection and stops".  The read
drain on a disconnected port prints the diagnostic on EVERY iteration and
never reaches a `break` (after `n` iterations: `n` reports, not finished),
and a write request of a nonempty payload to a disconnected port does the
same; no I/O is attempted in either case (no trace element consumed,
nothing accepted).  The source's `else` branches (lib.rs lines 347-349 and
402-404) lack a `break`, so both loops spin forever re-reporting. -/
theorem c6_disconnected_loops_never_stop (label : String) (buffer : List Nat)
    (br : Nat) (trace : List ReadResult) (n : Nat) (b : Nat) (bs : List Nat)
    (wtrace : List WriteResult) :
    (readDrainAux label false buffer br trace n).reports
        = List.replicate n (connClosedMsg label) ∧
    (readDrainAux label false buffer br trace n).finished = false ∧
    (readDrainAux label false buffer br trace n).messages = [] ∧
    (writeDrainAux label false (b :: bs) 0 wtrace n).reports
        = List.replicate n (connClosedMsg label) ∧
    (writeDrainAux label false (b :: bs) 0 wtrace n).finished = false ∧
    (writeDrainAux label false (b :: bs) 0 wtrace n).accepted = [] := by
  have hr := readDrainAux_disconnected label n buffer br trace
  have hw := writeDrainAux_disconnected label n (b :: bs) 0 wtrace (by simp)
  rw [hr, hw]
  exact ⟨rfl, rfl, rfl, rfl, rfl, rfl⟩

/-- C7: a write request of a nonempty payload to a connected port whose
OS accepts it in `k ≥ 1` partial writes (each accepting at least one byte
of the offered remainder, never would-blocking, summing to the payload
length) terminates in exactly `k` iterations with the full payload sent:
each successive write is issued at the offset advanced by the bytes
already accepted, and the concatenation of the chunks the OS accepted
equals the payload byte-for-byte, exactly once.  (The misleading
"write size error" diagnostic may be printed, but the partial acceptance
is treated as routine progress.) -/
theorem c7_partial_writes_exact (label : String) (buffer : List Nat)
    (ks : List Nat) (hne : ks ≠ []) (hpos : ∀ k ∈ ks, 1 ≤ k)
    (hfit : oksFit buffer.length 0 ks = true)
    (hsum : ks.sum = buffer.length) :
    (write_serial_drain label true buffer (ks.map WriteResult.ok)
        ks.length).finished = true ∧
    (write_serial_drain label true buffer (ks.map WriteResult.ok)
        ks.length).bytesWrote = buffer.length ∧
    (write_serial_drain label true buffer (ks.map WriteResult.ok)
        ks.length).accepted.flatten = buffer := by
  have h := writeDrainAux_ok_run label buffer ks 0 hne hpos hfit (by omega)
  unfold write_serial_drain
  simpa using h

theorem c7_partial_writes_exact_witness :
    ([2, 2] : List Nat) ≠ [] ∧
    (∀ k ∈ ([2, 2] : List Nat), 1 ≤ k) ∧
    oksFit ([80, 73, 78, 71] : List Nat).length 0 [2, 2] = true ∧
    ([2, 2] : List Nat).sum = ([80, 73, 78, 71] : List Nat).length ∧
    ((write_serial_drain "nav" true [80, 73, 78, 71]
        ([2, 2].map WriteResult.ok) ([2, 2] : List Nat).length).finished = true ∧
     (write_serial_drain "nav" true [80, 73, 78, 71]
        ([2, 2].map WriteResult.ok) ([2, 2] : List Nat).length).bytesWrote
          = ([80, 73, 78, 71] : List Nat).length ∧
     (write_serial_drain "nav" true [80, 73, 78, 71]
        ([2, 2].map WriteResult.ok) ([2, 2] : List Nat).length).accepted.flatten
          = [80, 73, 78, 71]) :=
  ⟨by decide, by decide, by decide, by decide,
   c7_partial_writes_exact "nav" [80, 73, 78, 71] [2, 2] (by decide) (by decide)
     (by decide) (by decide)⟩

/-- C8 (code bug, evaluated at the failing input): on a read error that is
neither would-block nor interrupted the engine reports it (label and
cause) without panicking, leaves `connected`, the buffer and the offset
unchanged, and emits no message for that attempt — but the drain does NOT
stop: the loop continues into the rest of the trace (the source's arm,
commented "other errors are fatal", has no `break`).  Likewise the write
loop on such an error reports it but does NOT drop the unsent remainder:
it continues retrying with `bytes_wrote` unchanged, so with a persistent
error it never terminates. -/
theorem c8_fatal_error_loops_continue (label : String) (buffer : List Nat)
    (br : Nat) (rest : List ReadResult) (n : Nat) (b : Nat) (bs : List Nat)
    (wrest : List WriteResult) :
    (readDrainAux label true buffer br (ReadResult.otherError :: rest) (n + 1)).reports
        = readFailMsg label :: (readDrainAux label true buffer br rest n).reports ∧
    (readDrainAux label true buffer br (ReadResult.otherError :: rest) (n + 1)).messages
        = (readDrainAux label true buffer br rest n).messages ∧
    (readDrainAux label true buffer br (ReadResult.otherError :: rest) (n + 1)).connected
        = (readDrainAux label true buffer br rest n).connected ∧
    (readDrainAux label true buffer br (ReadResult.otherError :: rest) (n + 1)).finished
        = (readDrainAux label true buffer br rest n).finished ∧
    (readDrainAux label true buffer br (ReadResult.otherError :: rest) (n + 1)).buffer
        = (readDrainAux label true buffer br rest n).buffer ∧
    (readDrainAux label true buffer br (ReadResult.otherError :: rest) (n + 1)).bytesRead
        = (readDrainAux label true buffer br rest n).bytesRead ∧
    (writeDrainAux label true (b :: bs) 0 (WriteResult.otherError :: wrest) (n + 1)).reports
        = writeFailMsg label :: (writeDrainAux label true (b :: bs) 0 wrest n).reports ∧
    (writeDrainAux label true (b :: bs) 0 (WriteResult.otherError :: wrest) (n + 1)).accepted
        = (writeDrainAux label true (b :: bs) 0 wrest n).accepted ∧
    (writeDrainAux label true (b :: bs) 0 (WriteResult.otherError :: wrest) (n + 1)).bytesWrote
        = (writeDrainAux label true (b :: bs) 0 wrest n).bytesWrote ∧
    (writeDrainAux label true (b :: bs) 0 (WriteResult.otherError :: wrest) (n + 1)).finished
        = (writeDrainAux label true (b :: bs) 0 wrest n).finished := by
  have hr := readDrainAux_err_cons label buffer br rest n
  have hw := writeDrainAux_err_cons label (b :: bs) 0 wrest n (by simp)
  rw [hr, hw]
  exact ⟨rfl, rfl, rfl, rfl, rfl, rfl, rfl, rfl, rfl, rfl⟩

/-- C9: the read buffer starts at the fixed default capacity
`DEFAULT_READ_BUFFER_LEN = 2048`, and the `Ok(n)` read step extends the
buffer by exactly that same increment precisely when the accumulated bytes
fill it completely (otherwise the length is unchanged), while preserving
every byte read so far followed by the new chunk — so arbitrarily long
bursts are accumulated without discarding bytes. -/
theorem c9_buffer_growth (buffer chunk : List Nat) (br : Nat)
    (h : br + chunk.length ≤ buffer.length) :
    initialReadBuffer.length = DEFAULT_READ_BUFFER_LEN ∧
    DEFAULT_READ_BUFFER_LEN = 2048 ∧
    (readDataStep buffer br chunk).1.length
      = (if br + chunk.length = buffer.length
         then buffer.length + DEFAULT_READ_BUFFER_LEN else buffer.length) ∧
    (readDataStep buffer br chunk).1.take (br + chunk.length)
      = buffer.take br ++ chunk := by
  obtain ⟨_, h2, h3⟩ := readDataStep_spec buffer chunk br h
  exact ⟨by simp [initialReadBuffer], rfl, h2, h3⟩

theorem c9_buffer_growth_witness :
    1 + ([5, 6] : List Nat).length ≤ ([0, 0, 0] : List Nat).length ∧
    (initialReadBuffer.length = DEFAULT_READ_BUFFER_LEN ∧
     DEFAULT_READ_BUFFER_LEN = 2048 ∧
     (readDataStep [0, 0, 0] 1 [5, 6]).1.length
       = (if 1 + ([5, 6] : List Nat).length = ([0, 0, 0] : List Nat).length
          then ([0, 0, 0] : List Nat).length + DEFAULT_READ_BUFFER_LEN
          else ([0, 0, 0] : List Nat).length) ∧
     (readDataStep [0, 0, 0] 1 [5, 6]).1.take (1 + ([5, 6] : List Nat).length)
       = ([0, 0, 0] : List Nat).take 1 ++ [5, 6]) :=
  ⟨by decide, c9_buffer_growth [0, 0, 0] [5, 6] 1 (by decide)⟩

/-- C10: the running offsets never leave the buffer: starting from
`bytes_read = 0 < buffer.len()`, the read step keeps the offset strictly
below the (possibly extended) buffer length whenever the chunk fits the
offered slice, so `buffer[bytes_read..]` is in bounds before every read
call; and the write step keeps `bytes_wrote ≤ buffer.len()` whenever the
OS accepts at most the remaining bytes offered, so `buffer[bytes_wrote..]`
is in bounds — the out-of-range panic branch is unreachable. -/
theorem c10_offsets_stay_in_bounds (buffer chunk : List Nat) (br : Nat)
    (bufLen bw n : Nat)
    (hr : br + chunk.length ≤ buffer.length)
    (hw1 : bw ≤ bufLen) (hw2 : n ≤ bufLen - bw) :
    0 < initialReadBuffer.length ∧
    (readDataStep buffer br chunk).2 < (readDataStep buffer br chunk).1.length ∧
    writeStepBytes bufLen bw n ≤ bufLen := by
  obtain ⟨h1, h2, _⟩ := readDataStep_spec buffer chunk br hr
  refine ⟨?_, ?_, ?_⟩
  · rw [initialReadBuffer, List.length_replicate, DEFAULT_READ_BUFFER_LEN]
    omega
  · rw [h1, h2]
    by_cases hfull : br + chunk.length = buffer.length
    · rw [if_pos hfull]
      simp only [DEFAULT_READ_BUFFER_LEN]
      omega
    · rw [if_neg hfull]
      omega
  · unfold writeStepBytes
    by_cases hlt : n < bufLen
    · rw [if_pos hlt]; omega
    · rw [if_neg hlt]; omega

theorem c10_offsets_stay_in_bounds_witness :
    1 + ([7] : List Nat).length ≤ ([0, 0] : List Nat).length ∧ 2 ≤ 4 ∧ 2 ≤ 4 - 2 ∧
    (0 < initialReadBuffer.length ∧
     (readDataStep [0, 0] 1 [7]).2 < (readDataStep [0, 0] 1 [7]).1.length ∧
     writeStepBytes 4 2 2 ≤ 4) :=
  ⟨by decide, by decide, by decide,
   c10_offsets_stay_in_bounds [0, 0] [7] 1 4 2 2 (by decide) (by decide) (by decide)⟩
